import Mathlib

/-!
Verification development for the MetoSheet billing reconciliation pipeline
(`src/billing.py`).  The Python code is shallowly embedded: loosely structured
JSON payloads become a `Json` inductive, Python numbers are modelled as exact
rationals, fallible operations return `Option`, and the external transport /
spreadsheet collaborators are modelled by explicit parameters (a scripted list
of transport outcomes, a list of already-stored rows).  Each embedded
definition is a direct translation of the source function named in its doc
comment.
-/

namespace MetoSheet

/- Model of a decoded Python/JSON value, as manipulated by `billing.py`.
`Fields` is an ordered association list modelling a Python `dict` (keys are
unique in practice; lookups take the first binding, as `dict.get` does) and
`Elems` models a Python `list`.  Numbers carry exact rationals: the Python
floats in scope here (amounts, tax rates) are modelled by their exact values.
A Python `bool` is kept separate but is treated as numeric where the source
relies on `isinstance(x, (int, float))`, which is true of `bool` in Python. -/
mutual

/-- A decoded Python/JSON value. -/
inductive Json where
  | null : Json
  | bool : Bool → Json
  | num : ℚ → Json
  | str : String → Json
  | obj : Fields → Json
  | arr : Elems → Json

/-- An ordered key-value list modelling a Python `dict`. -/
inductive Fields where
  | fnil : Fields
  | fcons : String → Json → Fields → Fields

/-- An ordered element list modelling a Python `list`. -/
inductive Elems where
  | enil : Elems
  | econs : Json → Elems → Elems

end

/-- `dict` lookup: value of the first binding of `k` (Python dicts have unique
keys, and `key in d` / `d[key]` / `d.get(key)` all consult that binding). -/
def Fields.lookup : Fields → String → Option Json
  | .fnil, _ => none
  | .fcons k v rest, key => if k == key then some v else Fields.lookup rest key

/-- Python truthiness of a decoded JSON value (`if x:`). -/
def Json.truthy : Json → Bool
  | .null => false
  | .bool b => b
  | .num q => q != 0
  | .str s => !s.isEmpty
  | .obj .fnil => false
  | .obj (.fcons _ _ _) => true
  | .arr .enil => false
  | .arr (.econs _ _) => true

/-- Python `isinstance(x, (int, float))`.  `bool` is a subclass of `int` in
Python, so it counts as numeric. -/
def Json.isNumericPy : Json → Bool
  | .num _ => true
  | .bool _ => true
  | _ => false

/-- Numeric value of a Python number (`True`/`False` act as `1`/`0`).
Only meaningful when `isNumericPy` holds. -/
def Json.numVal : Json → ℚ
  | .num q => q
  | .bool b => if b then 1 else 0
  | _ => 0

/-- Truthiness of an optional value: Python `None` is falsy. -/
def optTruthy : Option Json → Bool
  | none => false
  | some j => j.truthy

/-- Floor of a rational, computed directly (kernel-reducible). -/
def ratFloor (q : ℚ) : ℤ := Int.fdiv q.num q.den

/-- Python 3 `round` on an exact value: round-half-to-even to an integer. -/
def pyRound (q : ℚ) : ℤ :=
  let f := ratFloor q
  let r := q - (f : ℚ)
  if r < 1 / 2 then f
  else if 1 / 2 < r then f + 1
  else if f % 2 = 0 then f else f + 1

/-- ASCII digit test; Python `str.isdigit` on the ASCII strings in scope. -/
def isAsciiDigit (c : Char) : Bool := '0' ≤ c && c ≤ '9'

/-- Python `s.isdigit()`: nonempty and all digits. -/
def strIsdigit (s : String) : Bool := !s.isEmpty && s.toList.all isAsciiDigit

/-- Python `s[-4:]`: the trailing four characters (the whole string when it is
shorter than four characters). -/
def strTail4 (s : String) : String := ⟨s.toList.drop (s.toList.length - 4)⟩

/-- Does `hay` start with `needle`? -/
def listStartsWith : List Char → List Char → Bool
  | [], _ => true
  | _ :: _, [] => false
  | a :: as, b :: bs => a == b && listStartsWith as bs

/-- Does `hay` contain `needle` as a contiguous run? -/
def listContainsSeq (needle : List Char) : List Char → Bool
  | [] => needle.isEmpty
  | c :: rest => listStartsWith needle (c :: rest) || listContainsSeq needle rest

/-- Python `sub in hay` on strings: contiguous-substring membership. -/
def strContainsSub (hay sub : String) : Bool := listContainsSeq sub.toList hay.toList

/-- Is `c` one of the characters of the list? -/
def listHasChar (c : Char) : List Char → Bool
  | [] => false
  | a :: rest => a == c || listHasChar c rest

/-- Python `c in s` for a single character. -/
def strContainsChar (s : String) (c : Char) : Bool := listHasChar c s.toList

/-- The characters before the first `'+'` (all of them when there is
none). -/
def takeUntilPlus : List Char → List Char
  | [] => []
  | a :: rest => if a == '+' then [] else a :: takeUntilPlus rest

/-- Python `s.split("+")[0]`: the prefix of `s` before its first `'+'`
(the whole of `s` when it has none). -/
def takeBeforePlus (s : String) : String := ⟨takeUntilPlus s.toList⟩

/-- ASCII lowering of one character; the account names in scope are ASCII, so
this models Python `str.lower`. -/
def asciiLowerChar (c : Char) : Char :=
  if 'A' ≤ c && c ≤ 'Z' then Char.ofNat (c.toNat + 32) else c

/-- Python `s.lower()` on the ASCII strings in scope. -/
def asciiLower (s : String) : String := ⟨s.toList.map asciiLowerChar⟩

/-- Python `s.replace("act_", "")`: remove every (non-overlapping, left-to-right)
occurrence of `"act_"`. -/
def removeActMarks : List Char → List Char
  | 'a' :: 'c' :: 't' :: '_' :: rest => removeActMarks rest
  | c :: rest => c :: removeActMarks rest
  | [] => []

/-- `account_id.replace("act_", "")` as used for the invoice URL and the
stored `account_id`. -/
def stripAct (s : String) : String := ⟨removeActMarks s.toList⟩

/-- Configuration surface consumed by the embedded core (`Config` in the
source): the tax rate (`TAX_RATE`, default `0.11`) and the timezone offset in
hours (`TIMEZONE_OFFSET`, default `7`). -/
structure Config where
  tax_rate : ℚ
  timezone_offset : ℤ

/-- The defaults from `billing.py`'s `Config`. -/
def defaultConfig : Config := { tax_rate := 11 / 100, timezone_offset := 7 }

/-- A proleptic-Gregorian calendar date, as held by a Python `datetime`. -/
structure Date where
  year : ℤ
  month : ℤ
  day : ℤ
deriving DecidableEq

/-- Gregorian leap-year rule (as implemented by Python's `datetime`). -/
def isLeap (y : ℤ) : Bool := (y % 4 == 0 && y % 100 != 0) || y % 400 == 0

/-- Number of days in a month of the Gregorian calendar. -/
def daysInMonth (y m : ℤ) : ℤ :=
  if m = 2 then (if isLeap y then 29 else 28)
  else if m = 4 ∨ m = 6 ∨ m = 9 ∨ m = 11 then 30
  else 31

/-- Days since the Unix epoch (1970-01-01) of a civil date; the standard
era-based civil-calendar conversion, matching `datetime.toordinal` shifted to
the epoch. -/
def daysFromCivil (dt : Date) : ℤ :=
  let y := if dt.month ≤ 2 then dt.year - 1 else dt.year
  let era := Int.fdiv y 400
  let yoe := y - era * 400
  let mp := if dt.month > 2 then dt.month - 3 else dt.month + 9
  let doy := Int.fdiv (153 * mp + 2) 5 + dt.day - 1
  let doe := yoe * 365 + Int.fdiv yoe 4 - Int.fdiv yoe 100 + doy
  era * 146097 + doe - 719468

/-- Civil date of a days-since-epoch count; inverse of `daysFromCivil`. -/
def civilFromDays (z0 : ℤ) : Date :=
  let z := z0 + 719468
  let era := Int.fdiv z 146097
  let doe := z - era * 146097
  let yoe := Int.fdiv (doe - Int.fdiv doe 1460 + Int.fdiv doe 36524 - Int.fdiv doe 146096) 365
  let y := yoe + era * 400
  let doy := doe - (365 * yoe + Int.fdiv yoe 4 - Int.fdiv yoe 100)
  let mp := Int.fdiv (5 * doy + 2) 153
  let d := doy - Int.fdiv (153 * mp + 2) 5 + 1
  let m := if mp < 10 then mp + 3 else mp - 9
  { year := if m ≤ 2 then y + 1 else y, month := m, day := d }

/-- Seconds since the Unix epoch of a civil date-time. -/
def civilToSecs (dt : Date) (h mi s : ℤ) : ℤ :=
  daysFromCivil dt * 86400 + h * 3600 + mi * 60 + s

/-- The civil date a seconds-since-epoch instant falls on (UTC). -/
def dateOfSecs (secs : ℤ) : Date := civilFromDays (Int.fdiv secs 86400)

/-- Left-pad the decimal representation of a nonnegative integer with zeros to
width `w`, as `strftime`'s `%Y`/`%m`/`%d` do. -/
def padInt (w : Nat) (n : ℤ) : String :=
  let s := toString n
  ⟨List.replicate (w - s.length) '0'⟩ ++ s

/-- `dt.strftime("%Y-%m-%d")`. -/
def formatYmd (dt : Date) : String :=
  padInt 4 dt.year ++ "-" ++ padInt 2 dt.month ++ "-" ++ padInt 2 dt.day

/-- Numeric value of an ASCII digit character. -/
def digitVal (c : Char) : ℤ := (c.toNat : ℤ) - 48

/-- `datetime.strptime(s, "%Y-%m-%dT%H:%M:%S")`, strict: the whole string must
match the pattern (trailing characters such as an unstripped `Z` offset make
`strptime` raise) and the fields must form a valid date-time, or the parse
fails.  Returns the date and the seconds-within-day. -/
def strptimeIso (s : String) : Option (Date × ℤ) :=
  match s.toList with
  | [y1, y2, y3, y4, '-', m1, m2, '-', d1, d2, 'T', h1, h2, ':', n1, n2, ':', s1, s2] =>
    if [y1, y2, y3, y4, m1, m2, d1, d2, h1, h2, n1, n2, s1, s2].all isAsciiDigit then
      let y := 1000 * digitVal y1 + 100 * digitVal y2 + 10 * digitVal y3 + digitVal y4
      let mo := 10 * digitVal m1 + digitVal m2
      let d := 10 * digitVal d1 + digitVal d2
      let h := 10 * digitVal h1 + digitVal h2
      let mi := 10 * digitVal n1 + digitVal n2
      let se := 10 * digitVal s1 + digitVal s2
      if 1 ≤ y ∧ 1 ≤ mo ∧ mo ≤ 12 ∧ 1 ≤ d ∧ d ≤ daysInMonth y mo ∧
          h ≤ 23 ∧ mi ≤ 59 ∧ se ≤ 59 then
        some ({ year := y, month := mo, day := d }, h * 3600 + mi * 60 + se)
      else none
    else none
  | _ => none

/-- Event-date normalization, `billing.py` lines 896-920: the body of the
date-handling `try` block of `process_transaction_data`, given the truthy
`activity.get("event_time")` value.  `none` models an exception (the record is
then skipped).  An ISO string is split at its first `'+'` before `strptime`
(other offset markers are not stripped and make the parse raise);
`config.timezone_offset` hours are then added.  A numeric timestamp goes
through `datetime.fromtimestamp` — modelled as the UTC conversion, the
process's local timezone — and gets the same offset.  A Python `bool` passes
the source's `isinstance(timestamp, (int, float))` check and behaves as its
numeric value.  Any other string is returned as its prefix before `'T'` (the
string itself when it has no `'T'`); a non-string, non-numeric value makes
`"T" in timestamp` raise, skipping the record. -/
def extractEventDate (tz : ℤ) : Json → Option String
  | .str s =>
    if strContainsChar s 'T' then
      match strptimeIso (takeBeforePlus s) with
      | some (dt, daySecs) =>
        some (formatYmd (dateOfSecs (civilToSecs dt 0 0 0 + daySecs + tz * 3600)))
      | none => none
    else some s
  | .num q => some (formatYmd (dateOfSecs (ratFloor q + tz * 3600)))
  | .bool b => some (formatYmd (dateOfSecs ((if b then 1 else 0) + tz * 3600)))
  | _ => none

/-- A raw activity as returned by the upstream API: `event_type`,
`event_time` and `extra_data`, the latter two of unstable shape.  A missing
`event_type` is modelled as the empty string (the source reads it with
`activity.get("event_type", "")` where its content matters). -/
structure Activity where
  event_type : String
  event_time : Json
  extra_data : Json

/-- First present key, `billing.py`'s `for key in [...]: if key in extra_data`
pattern: the value of the first key of `keys` bound in `fs`.  Presence alone
stops the scan; the value's type is not inspected. -/
def firstKey (fs : Fields) : List String → Option Json
  | [] => none
  | k :: ks =>
    match fs.lookup k with
    | some v => some v
    | none => firstKey fs ks

/-- Transaction-id extraction, `billing.py` lines 717-727: first present key
among `transaction_id`, `id`, `charge_id`, `payment_id`; `None` when
`extra_data` is not a dict. -/
def extractTransactionId : Json → Option Json
  | .obj fs => firstKey fs ["transaction_id", "id", "charge_id", "payment_id"]
  | _ => none

/-- Amount extraction, `billing.py` lines 729-736: first present key among
`new_value`, `amount`, `charge_amount`, `value`; `None` when `extra_data` is
not a dict. -/
def extractAmount : Json → Option Json
  | .obj fs => firstKey fs ["new_value", "amount", "charge_amount", "value"]
  | _ => none

/-- Tax computation in the normalizer, `billing.py` lines 739-741:
`round(amount * config.tax_rate)` when the extracted amount is truthy and
`isinstance(amount, (int, float))`, else `None`. -/
def taxAmountOf (cfg : Config) (amount : Option Json) : Option ℤ :=
  match amount with
  | some a => if a.truthy && a.isNumericPy then some (pyRound (a.numVal * cfg.tax_rate)) else none
  | none => none

/-- Currency extraction, `billing.py` lines 744-749. -/
def extractCurrency : Json → Option Json
  | .obj fs => firstKey fs ["currency", "funding_source_currency"]
  | _ => none

/-- The candidate key names of `find_card_number_in_json`
(`card_number_fields`, `billing.py` lines 1057-1064), in source order. -/
def cardNumberFields : List String :=
  ["last4", "card_number", "card_last4", "last_4", "cardNumber", "card"]

/-- The per-value check of `find_card_number_in_json`'s direct-field loop
(`billing.py` lines 1068-1077): a nonempty all-digit string yields its
trailing four digits when longer than four characters, itself otherwise;
any other value yields nothing (and the loop moves on). -/
def cardFragOfValue : Json → Option String
  | .str v =>
    if decide (v.length > 4) && strIsdigit v then some (strTail4 v)
    else if decide (v.length ≤ 4) && strIsdigit v then some v
    else none
  | _ => none

/-- The direct-field loop of `find_card_number_in_json` (`billing.py` lines
1067-1077): try each candidate key in order; a present key whose value passes
`cardFragOfValue` returns, otherwise the loop continues with the next key. -/
def directCardSearch (fs : Fields) : List String → Option String
  | [] => none
  | k :: ks =>
    match fs.lookup k with
    | some v =>
      match cardFragOfValue v with
      | some c => some c
      | none => directCardSearch fs ks
    | none => directCardSearch fs ks

/- `find_card_number_in_json` (`billing.py` lines 1047-1094): depth-first
search of the decoded payload.  On a dict: try the direct card fields first,
then recurse into the dict's values in iteration order; on a list: recurse
into the items in order; anything else yields nothing.  The first hit wins
(the source's `if result:` truthiness test coincides with `is not None`
because a returned fragment is never the empty string — `"".isdigit()` is
false). -/
mutual

/-- Recursive card-number search over a decoded payload (see above). -/
def find_card_number_in_json : Json → Option String
  | .obj fs =>
    (match directCardSearch fs cardNumberFields with
     | some c => some c
     | none => findCardInFields fs)
  | .arr els => findCardInElems els
  | _ => none

/-- Search the values of a dict, in iteration order. -/
def findCardInFields : Fields → Option String
  | .fnil => none
  | .fcons _ v rest =>
    match find_card_number_in_json v with
    | some c => some c
    | none => findCardInFields rest

/-- Search the items of a list, in order. -/
def findCardInElems : Elems → Option String
  | .enil => none
  | .econs v rest =>
    match find_card_number_in_json v with
    | some c => some c
    | none => findCardInElems rest

end

/-- `d.get(k, default)` on a value known to be a dict at the call site; the
handful of chained `.get` calls in the card extraction apply this to values
that could in principle be non-dicts (where Python would raise); those inputs
do not occur in the payload shapes exercised here and are modelled as the
default. -/
def jGetD (j : Json) (k : String) (dflt : Json) : Json :=
  match j with
  | .obj fs => (fs.lookup k).getD dflt
  | _ => dflt

/-- `s[-4:]` applied to a `.get(..., "")` result; the source would raise on a
non-string (which the exercised payload shapes avoid) — modelled as the value
itself. -/
def jTail4 : Json → Json
  | .str s => .str (strTail4 s)
  | j => j

/-- The layered card-number extraction of `process_transaction_data`
(`billing.py` lines 752-874), given the decoded `extra_data` dict: nested
`payment_method_details` (JSON-decoded when it arrives as a string, via the
external decoder `dec`) checked for `last4` then `card_number`; then top-level
`card_number`; then `funding_source_details.last4`;
`payment_details.payment_method.card.last4`; `funding_source.last4`;
`payment_instrument.card_last4`; `payment_instrument.last4`; finally the
recursive deep search.  Each step runs only while the accumulated value is
still falsy.  The result is `Json.null` when nothing was found. -/
def cardFromPayload (dec : String → Option Json) (fs : Fields) : Json :=
  let emptyD : Json := .obj .fnil
  let p0 := (fs.lookup "payment_method_details").getD emptyD
  let pinfo := match p0 with
    | .str s => (dec s).getD emptyD
    | j => j
  let c1 : Json := match pinfo with
    | .obj pfs => (pfs.lookup "last4").getD (.str "")
    | _ => .null
  let c2 := if !c1.truthy && (jGetD pinfo "card_number" .null).truthy then
      jTail4 (jGetD pinfo "card_number" (.str "")) else c1
  let c3 := if !c2.truthy && ((fs.lookup "card_number").getD .null).truthy then
      jTail4 ((fs.lookup "card_number").getD (.str "")) else c2
  let c4 := if !c3.truthy &&
      (jGetD ((fs.lookup "funding_source_details").getD emptyD) "last4" .null).truthy then
      jGetD ((fs.lookup "funding_source_details").getD emptyD) "last4" .null else c3
  let pdmCard := jGetD (jGetD ((fs.lookup "payment_details").getD emptyD)
      "payment_method" emptyD) "card" emptyD
  let c5 := if !c4.truthy && (jGetD pdmCard "last4" .null).truthy then
      jGetD pdmCard "last4" .null else c4
  let c6 := if !c5.truthy &&
      (jGetD ((fs.lookup "funding_source").getD emptyD) "last4" .null).truthy then
      jGetD ((fs.lookup "funding_source").getD emptyD) "last4" .null else c5
  let c7 := if !c6.truthy &&
      (jGetD ((fs.lookup "payment_instrument").getD emptyD) "card_last4" .null).truthy then
      jGetD ((fs.lookup "payment_instrument").getD emptyD) "card_last4" .null else c6
  let c8 := if !c7.truthy &&
      (jGetD ((fs.lookup "payment_instrument").getD emptyD) "last4" .null).truthy then
      jGetD ((fs.lookup "payment_instrument").getD emptyD) "last4" .null else c7
  if !c8.truthy then
    match find_card_number_in_json (.obj fs) with
    | some c => .str c
    | none => .null
  else c8

/-- The account-default fallback for the card number (`billing.py` lines
684-691 and 876-892): an account whose lowered name contains `"jakmall"` gets
`"1092"`, anything else the general default `"9816"`. -/
def cardDefault (accountName : String) : String :=
  if strContainsSub (asciiLower accountName) "jakmall" then "1092" else "9816"

/-- The complete card-number determination for one activity: the payload
chain when `extra_data` is a dict (else nothing), then the account-keyed
default when the chain produced a falsy value. -/
def cardOfActivity (dec : String → Option Json) (accountName : String)
    (extra : Json) : Json :=
  let chain := match extra with
    | .obj fs => cardFromPayload dec fs
    | _ => .null
  if chain.truthy then chain else .str (cardDefault accountName)

/-- The canonical transaction dict appended by `process_transaction_data`
(`billing.py` lines 925-937). -/
structure Tx where
  account : String
  transaction_id : Json
  date : String
  amount : Json
  tax_amount : Option ℤ
  currency : Option Json
  card : Json
  event_type : String
  account_id : String

/-- Payload decoding, `billing.py` lines 695-705: a string-typed `extra_data`
is JSON-decoded via the external decoder `dec` (Python's `json.loads`,
supplied as a parameter); on failure it degrades to
`{"raw_data": <original string>}`.  A non-string passes through. -/
def decodeExtra (dec : String → Option Json) : Json → Json
  | .str s =>
    match dec s with
    | some j => j
    | none => .obj (.fcons "raw_data" (.str s) .fnil)
  | j => j

/-- The per-activity body of `process_transaction_data` (`billing.py` lines
693-943): decode the payload, extract transaction id / amount / tax /
currency / card, and emit a record only when both the transaction id and the
amount are truthy (`if transaction_id and amount:`), the `event_time` is
truthy, and the date handling does not raise (`none` from
`extractEventDate`).  `accountName`/`accountId` come from `account_info`. -/
def processActivity (cfg : Config) (dec : String → Option Json)
    (accountName accountId : String) (activity : Activity) : Option Tx :=
  let extra := decodeExtra dec activity.extra_data
  let tid := extractTransactionId extra
  let amt := extractAmount extra
  let tax := taxAmountOf cfg amt
  let cur := extractCurrency extra
  let card := cardOfActivity dec accountName extra
  if optTruthy tid && optTruthy amt then
    if activity.event_time.truthy then
      match extractEventDate cfg.timezone_offset activity.event_time with
      | some d =>
        some { account := accountName
               transaction_id := tid.getD .null
               date := d
               amount := amt.getD .null
               tax_amount := tax
               currency := cur
               card := card
               event_type := activity.event_type
               account_id := stripAct accountId }
      | none => none
    else none
  else none

/-- `process_transaction_data` (`billing.py` lines 674-946): the loop over
`activities`, appending the record of each activity that yields one.  Each
iteration is independent; a skipped record (missing id/amount, falsy
timestamp, or a date-handling exception) leaves the rest of the batch
unaffected. -/
def processTransactionData (cfg : Config) (dec : String → Option Json)
    (accountName accountId : String) : List Activity → List Tx
  | [] => []
  | a :: rest =>
    match processActivity cfg dec accountName accountId a with
    | some t => t :: processTransactionData cfg dec accountName accountId rest
    | none => processTransactionData cfg dec accountName accountId rest

/-- One data row of the worksheet below the header, in the eight-column order
of `save_to_sheets` (`billing.py` lines 995-1006).  The invoice URL is kept as
its two data constituents (cleaned account id and transaction id) rather than
the formatted `https://...` string, whose text carries no further
information. -/
structure Row where
  account : String
  txid : Json
  faktur : String
  date : String
  amount : Json
  withTax : Json
  card : Json
  urlAccount : String
  urlTxid : Json

/-- The existing-transaction-id set read at the start of `save_to_sheets`
(`billing.py` lines 956-959): the column-2 values of the data rows.  The Sink
interface returns cell values as strings; the transaction ids this pipeline
writes are strings (the spec's data model), and only string-valued cells are
modelled here. -/
def existingIds (rows : List Row) : List String :=
  rows.filterMap fun r =>
    match r.txid with
    | .str s => some s
    | _ => none

/-- The dedup test of `save_to_sheets` (`billing.py` lines 968-972):
`t.get("transaction_id", "") not in existing_transaction_ids` is false —
i.e. the transaction is dropped — exactly when its id is a string already in
the set (a non-string id never equals a string set member in Python). -/
def txidInSet (ids : List String) : Json → Bool
  | .str s => ids.contains s
  | _ => false

/-- Row construction for one new transaction (`billing.py` lines 983-1008).
`base_amount + round(base_amount * config.tax_rate)` raises a `TypeError`
when the stored amount is not numeric (modelled as `none`, which aborts row
building as the uncaught exception aborts `save_to_sheets`). -/
def buildRow (cfg : Config) (t : Tx) : Option Row :=
  if t.amount.isNumericPy then
    some { account := t.account
           txid := t.transaction_id
           faktur := ""
           date := t.date
           amount := t.amount
           withTax := .num (t.amount.numVal + (pyRound (t.amount.numVal * cfg.tax_rate) : ℚ))
           card := t.card
           urlAccount := stripAct t.account_id
           urlTxid := t.transaction_id }
  else none

/-- The row-building loop of `save_to_sheets`: all rows are built before any
append; the first raising transaction aborts the whole call. -/
def buildRows (cfg : Config) : List Tx → Option (List Row)
  | [] => some []
  | t :: ts =>
    match buildRow cfg t with
    | some r => (buildRows cfg ts).map (r :: ·)
    | none => none

/-- `save_to_sheets` (`billing.py` lines 949-1044).  `readFails` models the
`try`/`except` around reading the existing ids (a failure returns `0` with
nothing appended).  Otherwise the incoming transactions are filtered against
the existing-id set, rows are built for the survivors, and each row is
appended in input order.  The nominal path (appends succeed) is modelled; the
result is the new sheet state paired with the returned count, or `none` when
row building raised. -/
def save_to_sheets (cfg : Config) (readFails : Bool) (rows : List Row)
    (ts : List Tx) : Option (List Row × ℕ) :=
  if readFails then some (rows, 0)
  else
    let ids := existingIds rows
    let newTs := ts.filter fun t => !txidInSet ids t.transaction_id
    match buildRows cfg newTs with
    | some built => some (rows ++ built, built.length)
    | none => none

/-- The sheet state after a `save_to_sheets` call: unchanged when the call
raised during row building. -/
def saveResultState (cfg : Config) (readFails : Bool) (rows : List Row)
    (ts : List Tx) : List Row :=
  match save_to_sheets cfg readFails rows ts with
  | some (rows2, _) => rows2
  | none => rows

/-- The rows a `save_to_sheets` call actually appended. -/
def appendedRows (cfg : Config) (readFails : Bool) (rows : List Row)
    (ts : List Tx) : List Row :=
  match save_to_sheets cfg readFails rows ts with
  | some (rows2, _) => rows2.drop rows.length
  | none => []

/-- One transport outcome for one issued HTTP request, as seen by
`make_api_request`: a 429 with an optional `Retry-After` header, a 200 with a
JSON body, a non-2xx status (raised by `raise_for_status` and caught), or a
transport exception (caught). -/
inductive ApiOutcome where
  | rateLimited : Option ℕ → ApiOutcome
  | success : Json → ApiOutcome
  | httpError : ℕ → ApiOutcome
  | netError : ApiOutcome

/-- `make_api_request` (`billing.py` lines 174-211) run against a scripted
list of transport outcomes, one consumed per issued request.  A 429 sleeps
for the `Retry-After` value (default 5) and calls `make_api_request` again on
the remaining script; a 200 returns its body; an error status or exception
returns `None`.  Results: the returned value, the number of requests issued,
and the list of sleeps performed.  An exhausted script (which cannot happen
against a real transport) yields `(none, 0, [])`. -/
def make_api_request : List ApiOutcome → Option Json × ℕ × List ℕ
  | [] => (none, 0, [])
  | o :: rest =>
    match o with
    | .rateLimited retryAfter =>
      let r := make_api_request rest
      (r.1, r.2.1 + 1, (retryAfter.getD 5) :: r.2.2)
    | .success body => (some body, 1, [])
    | .httpError _ => (none, 1, [])
    | .netError => (none, 1, [])

/-- What one query approach of `fetch_activities_with_multiple_approaches`
produced: `none` when `make_api_request` returned `None`, else the first
page's `data` plus, when the response carried a `paging.next` pointer, the
records accumulated from the remaining pages (pagination stops early on a
page failure, so this list may be partial). -/
structure ApproachResult where
  data : List Activity
  pages : Option (List Activity)

/-- The in-window test of the selector (`billing.py` lines 459-462):
`target_year_month in event_time` — a substring test on the event-time
string.  A non-string `event_time` value would make Python's `in` raise; the
upstream always returns strings and a non-string is modelled as
out-of-window. -/
def activityInWindow (ym : String) (a : Activity) : Bool :=
  match a.event_time with
  | .str s => strContainsSub s ym
  | _ => false

/-- `fetch_activities_with_multiple_approaches` (`billing.py` lines 390-501),
abstracted over the scripted outcome of each of its ordered approaches: a
failed request (`none`) or an empty first page moves on to the next approach;
a nonempty first page is filtered to the target year-month, and if any record
survives, that filtered set — extended with the filtered pagination records —
is returned and no further approach is tried; if nothing survives the filter,
the next approach is tried; exhaustion returns the empty list. -/
def fetchWithApproaches (ym : String) : List (Option ApproachResult) → List Activity
  | [] => []
  | none :: rest => fetchWithApproaches ym rest
  | some r :: rest =>
    if r.data.length > 0 then
      let found := r.data.filter (activityInWindow ym)
      if found.isEmpty then fetchWithApproaches ym rest
      else
        match r.pages with
        | some pageData => found ++ pageData.filter (activityInWindow ym)
        | none => found
    else fetchWithApproaches ym rest

/-- `start_date[:7]`: the target year-month of the requested window. -/
def targetYearMonth (startDate : String) : String := ⟨startDate.toList.take 7⟩

/-- Is this value a Python string? -/
def Json.isStr : Json → Bool
  | .str _ => true
  | _ => false

/-- Did this transport outcome carry HTTP status 429? -/
def ApiOutcome.isRateLimited : ApiOutcome → Bool
  | .rateLimited _ => true
  | _ => false

/-- The seconds `make_api_request` sleeps after a 429:
`int(response.headers.get("Retry-After", 5))`. -/
def sleepOf : ApiOutcome → ℕ
  | .rateLimited ra => ra.getD 5
  | _ => 5

/-- Has an approach been rejected by the selector?  A failed request, an
empty first page, or a first page with no in-window record all make the loop
continue with the next approach. -/
def approachRejected (ym : String) : Option ApproachResult → Bool
  | none => true
  | some r => (r.data.filter (activityInWindow ym)).isEmpty

/- Concrete example data used by the witnesses and the spec's worked
examples. -/

/-- A JSON decoder that fails on every input: the behaviour of `json.loads`
on the malformed payloads of the examples below (none of which are passed a
decodable string). -/
def failDecoder : String → Option Json := fun _ => none

/-- The spec's recursive-card-search payload: a `last4` fragment buried two
dicts deep, with no shallower card field. -/
def deepCardPayload : Json :=
  .obj (.fcons "a"
    (.obj (.fcons "b"
      (.obj (.fcons "last4" (.str "4242") .fnil)) .fnil)) .fnil)

/-- A well-formed charge activity: transaction id `t1`, amount `100`. -/
def goodAct1 : Activity :=
  { event_type := "charge"
    event_time := .str "2024-03-01T10:00:00+0000"
    extra_data := .obj (.fcons "transaction_id" (.str "t1")
      (.fcons "amount" (.num 100) .fnil)) }

/-- A malformed activity: the string payload is not JSON and decodes to
nothing recoverable. -/
def badAct : Activity :=
  { event_type := "charge"
    event_time := .str "2024-03-02T10:00:00+0000"
    extra_data := .str "corrupted payload" }

/-- A second well-formed charge activity: transaction id `t3`, amount
`200`. -/
def goodAct3 : Activity :=
  { event_type := "payment"
    event_time := .str "2024-03-05T20:00:00+0000"
    extra_data := .obj (.fcons "transaction_id" (.str "t3")
      (.fcons "amount" (.num 200) .fnil)) }

/-- The canonical transaction extracted from `goodAct1` at the default
configuration (tax 11% of 100 = 11; 10:00 UTC plus 7 hours stays on
2024-03-01; no card data, so the general default card). -/
def tx1 : Tx :=
  { account := "Acme", transaction_id := .str "t1", date := "2024-03-01"
    amount := .num 100, tax_amount := some 11, currency := none
    card := .str "9816", event_type := "charge", account_id := "987" }

/-- The canonical transaction extracted from `goodAct3` at the default
configuration (tax 22; 20:00 UTC plus 7 hours rolls over to 2024-03-06). -/
def tx3 : Tx :=
  { account := "Acme", transaction_id := .str "t3", date := "2024-03-06"
    amount := .num 200, tax_amount := some 22, currency := none
    card := .str "9816", event_type := "payment", account_id := "987" }

/-- A transaction whose amount is `1000`, for the spec's tax example. -/
def tx1000 : Tx :=
  { account := "Acme", transaction_id := .str "t9", date := "2024-03-01"
    amount := .num 1000, tax_amount := some 110, currency := none
    card := .str "9816", event_type := "charge", account_id := "987" }

/-- A sheet data row whose transaction id is `t1`, as left by an earlier
run. -/
def rowT1 : Row :=
  { account := "Acme", txid := .str "t1", faktur := "", date := "2024-03-01"
    amount := .num 100, withTax := .num 111, card := .str "9816"
    urlAccount := "987", urlTxid := .str "t1" }

/-- An activity whose extracted amount is the number `0` (present but
falsy). -/
def zeroAmountAct : Activity :=
  { event_type := "charge"
    event_time := .str "2024-03-01T10:00:00+0000"
    extra_data := .obj (.fcons "transaction_id" (.str "tz")
      (.fcons "amount" (.num 0) .fnil)) }

/-- An activity whose extracted transaction id is the empty string (present
but falsy). -/
def emptyTidAct : Activity :=
  { event_type := "charge"
    event_time := .str "2024-03-01T10:00:00+0000"
    extra_data := .obj (.fcons "transaction_id" (.str "")
      (.fcons "amount" (.num 100) .fnil)) }

/-- An activity inside the 2024-03 window, for the selector examples. -/
def marActivity : Activity :=
  { event_type := "charge", event_time := .str "2024-03-05T00:00:00+0000"
    extra_data := .obj .fnil }

/-- An activity outside the 2024-03 window. -/
def janActivity : Activity :=
  { event_type := "charge", event_time := .str "2024-01-15T00:00:00+0000"
    extra_data := .obj .fnil }

/- Shared helper lemmas. -/

lemma ratFloor_intCast (n : ℤ) : ratFloor (n : ℚ) = n := by
  simp [ratFloor]

lemma pyRound_intCast (n : ℤ) : pyRound (n : ℚ) = n := by
  simp [pyRound, ratFloor_intCast]

lemma pyRound_eq_intCast (q : ℚ) (n : ℤ) (h : q = (n : ℚ)) : pyRound q = n := by
  rw [h, pyRound_intCast]

lemma taxAmountOf_num (cfg : Config) (a : ℚ) (ha : a ≠ 0) :
    taxAmountOf cfg (some (.num a)) = some (pyRound (a * cfg.tax_rate)) := by
  simp [taxAmountOf, Json.truthy, Json.isNumericPy, Json.numVal, ha]

lemma tax_100 : taxAmountOf defaultConfig (some (.num 100)) = some 11 := by
  rw [taxAmountOf_num defaultConfig 100 (by norm_num)]
  rw [pyRound_eq_intCast _ 11 (by norm_num [defaultConfig])]

lemma tax_200 : taxAmountOf defaultConfig (some (.num 200)) = some 22 := by
  rw [taxAmountOf_num defaultConfig 200 (by norm_num)]
  rw [pyRound_eq_intCast _ 22 (by norm_num [defaultConfig])]

lemma tax_1000 : taxAmountOf defaultConfig (some (.num 1000)) = some 110 := by
  rw [taxAmountOf_num defaultConfig 1000 (by norm_num)]
  rw [pyRound_eq_intCast _ 110 (by norm_num [defaultConfig])]

lemma buildRow_txid (cfg : Config) (t : Tx) (r : Row)
    (h : buildRow cfg t = some r) : r.txid = t.transaction_id := by
  unfold buildRow at h
  by_cases hn : t.amount.isNumericPy = true
  · simp [hn] at h
    subst h
    rfl
  · simp [hn] at h

lemma buildRows_forward (cfg : Config) (ts : List Tx) (rs : List Row)
    (h : buildRows cfg ts = some rs) :
    ∀ t ∈ ts, ∃ r ∈ rs, r.txid = t.transaction_id := by
  induction ts generalizing rs with
  | nil => intro t ht; cases ht
  | cons t0 rest ih =>
    intro t ht
    unfold buildRows at h
    cases hb : buildRow cfg t0 with
    | none => rw [hb] at h; cases h
    | some r0 =>
      rw [hb] at h
      cases hrest : buildRows cfg rest with
      | none => rw [hrest] at h; cases h
      | some rs0 =>
        rw [hrest] at h
        simp at h
        subst h
        rcases List.mem_cons.mp ht with rfl | ht
        · exact ⟨r0, by simp, buildRow_txid cfg t r0 hb⟩
        · obtain ⟨r, hr, hrt⟩ := ih rs0 hrest t ht
          exact ⟨r, by simp [hr], hrt⟩

lemma buildRows_backward (cfg : Config) (ts : List Tx) (rs : List Row)
    (h : buildRows cfg ts = some rs) :
    ∀ r ∈ rs, ∃ t ∈ ts, r.txid = t.transaction_id := by
  induction ts generalizing rs with
  | nil =>
    unfold buildRows at h
    simp at h
    subst h
    intro r hr; cases hr
  | cons t0 rest ih =>
    intro r hr
    unfold buildRows at h
    cases hb : buildRow cfg t0 with
    | none => rw [hb] at h; cases h
    | some r0 =>
      rw [hb] at h
      cases hrest : buildRows cfg rest with
      | none => rw [hrest] at h; cases h
      | some rs0 =>
        rw [hrest] at h
        simp at h
        subst h
        rcases List.mem_cons.mp hr with rfl | hr
        · exact ⟨t0, by simp, buildRow_txid cfg t0 r hb⟩
        · obtain ⟨t, ht, hrt⟩ := ih rs0 hrest r hr
          exact ⟨t, by simp [ht], hrt⟩

lemma listHasChar_append_left (c : Char) (l1 l2 : List Char)
    (h : listHasChar c l1 = true) : listHasChar c (l1 ++ l2) = true := by
  induction l1 with
  | nil => cases h
  | cons a t ih =>
    simp only [listHasChar, Bool.or_eq_true] at h ⊢
    rcases h with h | h
    · exact Or.inl h
    · exact Or.inr (ih h)

lemma takeUntilPlus_append_left (l1 l2 : List Char)
    (h : listHasChar '+' l1 = true) :
    takeUntilPlus (l1 ++ l2) = takeUntilPlus l1 := by
  induction l1 with
  | nil => cases h
  | cons a t ih =>
    simp only [listHasChar, Bool.or_eq_true] at h
    by_cases ha : (a == '+') = true
    · simp [takeUntilPlus, ha]
    · rcases h with h | h
      · exact absurd h ha
      · simp [takeUntilPlus, ha, ih h]

/- Claim theorems. -/

/-- C10: if reading the set of existing transaction ids from the sheet
fails, `save_to_sheets` appends no rows at all and returns 0 — the sink
state is left unchanged on that error, for every input transaction list. -/
theorem c10_read_failure_appends_nothing (cfg : Config) (rows : List Row)
    (ts : List Tx) : save_to_sheets cfg true rows ts = some (rows, 0) := rfl

/-- C3 counterexample: against a transport that answers 429, 429, 200,
`make_api_request` issues three requests — it retries the same rate-limited
request twice at this layer, refuting "retries the same request exactly once
/ does not retry more than once". -/
theorem c3_counterexample :
    ¬((make_api_request [.rateLimited (some 1), .rateLimited (some 1),
        .success (.num 1)]).2.1 ≤ 2) := by decide

/-- C3 (amended): on a rate-limit response `make_api_request` waits for the
server-specified `Retry-After` delay (or the default of 5 seconds) and calls
itself again, with no bound at this layer: after any run of `k` consecutive
rate-limit responses it has issued `k + 1` requests and slept once per 429,
and it returns whatever the first non-429 outcome yields. -/
theorem c3_retries_until_not_rate_limited (pre : List ApiOutcome)
    (o : ApiOutcome) (rest : List ApiOutcome)
    (hpre : pre.all ApiOutcome.isRateLimited = true)
    (ho : o.isRateLimited = false) :
    make_api_request (pre ++ o :: rest) =
      ((make_api_request [o]).1, pre.length + 1, pre.map sleepOf) := by
  induction pre with
  | nil =>
    cases o with
    | rateLimited ra => simp [ApiOutcome.isRateLimited] at ho
    | success body => rfl
    | httpError code => rfl
    | netError => rfl
  | cons p prest ih =>
    simp only [List.all_cons, Bool.and_eq_true] at hpre
    cases p with
    | rateLimited ra =>
      simp only [List.cons_append, make_api_request, List.append_eq, ih hpre.2,
        List.length_cons, List.map_cons, sleepOf]
    | success body => simp [ApiOutcome.isRateLimited] at hpre
    | httpError code => simp [ApiOutcome.isRateLimited] at hpre
    | netError => simp [ApiOutcome.isRateLimited] at hpre

/-- C3 witness: one 429 with `Retry-After: 2`, then a 200: two requests
total and a single 2-second sleep. -/
theorem c3_retries_until_not_rate_limited_witness :
    make_api_request [.rateLimited (some 2), .success (.num 1)] =
      ((make_api_request [.success (.num 1)]).1, 2, [2]) :=
  c3_retries_until_not_rate_limited [.rateLimited (some 2)] (.success (.num 1))
    [] (by decide) (by decide)

/-- C5 counterexample: a payload whose highest-priority key `new_value`
holds the non-numeric string `"abc"` still counts as found — the extracted
amount is `"abc"` (blocking the numeric `amount: 50`), refuting "a value
counts as found only if it is numeric". -/
theorem c5_counterexample :
    extractAmount (.obj (.fcons "new_value" (.str "abc")
        (.fcons "amount" (.num 50) .fnil))) = some (.str "abc") ∧
    (Json.str "abc").isNumericPy = false := by
  exact ⟨rfl, rfl⟩

/-- C5 (amended): the extracted base amount is the value of the first
present key in the fixed priority order `new_value`, `amount`,
`charge_amount`, `value`, regardless of the value's type — mere presence
stops the scan (numericity is only checked later, for the tax computation
and the emission gate).  A payload with both `new_value: 100` and
`amount: 50` yields 100. -/
theorem c5_first_present_key :
    (∀ (fs : Fields) (v : Json), fs.lookup "new_value" = some v →
      extractAmount (.obj fs) = some v) ∧
    (∀ (fs : Fields) (v : Json), fs.lookup "new_value" = none →
      fs.lookup "amount" = some v → extractAmount (.obj fs) = some v) ∧
    extractAmount (.obj (.fcons "new_value" (.num 100)
      (.fcons "amount" (.num 50) .fnil))) = some (.num 100) := by
  refine ⟨?_, ?_, rfl⟩
  · intro fs v h
    simp [extractAmount, firstKey, h]
  · intro fs v h1 h2
    simp [extractAmount, firstKey, h1, h2]

/-- C5 witness: the first-present-key facts applied at concrete payloads. -/
theorem c5_first_present_key_witness :
    extractAmount (.obj (.fcons "new_value" (.str "abc")
        (.fcons "amount" (.num 50) .fnil))) = some (.str "abc") ∧
    extractAmount (.obj (.fcons "amount" (.num 50) .fnil)) = some (.num 50) :=
  ⟨c5_first_present_key.1 _ _ rfl, c5_first_present_key.2.1 _ _ rfl rfl⟩

/-- C6: the recursive card search.  A `last4` key holding an all-digit
string longer than four characters yields its trailing four digits; one of
length at most four is returned verbatim; the buried fragment of
`{a: {b: {last4: "4242"}}}` is found and is `"4242"`; at one dict node the
direct card fields win over anything nested (dictionary values are only
visited after them); a full `card_number` is truncated to its trailing four
digits. -/
theorem c6_recursive_card_search :
    (∀ (s : String) (fs : Fields), strIsdigit s = true → 4 < s.length →
      find_card_number_in_json (.obj (.fcons "last4" (.str s) fs)) =
        some (strTail4 s)) ∧
    (∀ (s : String) (fs : Fields), strIsdigit s = true → s.length ≤ 4 →
      find_card_number_in_json (.obj (.fcons "last4" (.str s) fs)) = some s) ∧
    find_card_number_in_json deepCardPayload = some "4242" ∧
    find_card_number_in_json (.obj (.fcons "a"
        (.obj (.fcons "last4" (.str "9999") .fnil))
        (.fcons "card" (.str "1234") .fnil))) = some "1234" ∧
    find_card_number_in_json (.obj (.fcons "card_number"
        (.str "4111111111111111") .fnil)) = some "1111" := by
  refine ⟨?_, ?_, rfl, rfl, rfl⟩
  · intro s fs hdig hlen
    have hlen2 : ¬(s.length ≤ 4) := by omega
    simp [find_card_number_in_json, directCardSearch, cardNumberFields,
      Fields.lookup, cardFragOfValue, hdig, hlen, hlen2]
  · intro s fs hdig hlen
    by_cases hgt : 4 < s.length
    · omega
    · simp [find_card_number_in_json, directCardSearch, cardNumberFields,
        Fields.lookup, cardFragOfValue, hdig, hlen, hgt]

/-- C6 witness: the digit-string rules applied at concrete fragments. -/
theorem c6_recursive_card_search_witness :
    find_card_number_in_json (.obj (.fcons "last4" (.str "12345") .fnil)) =
      some (strTail4 "12345") ∧
    find_card_number_in_json (.obj (.fcons "last4" (.str "4242") .fnil)) =
      some "4242" :=
  ⟨c6_recursive_card_search.1 "12345" .fnil (by decide) (by decide),
   c6_recursive_card_search.2.1 "4242" .fnil (by decide) (by decide)⟩

/-- C7 counterexample: the ISO-8601 timestamp `"2024-03-01T23:30:00Z"`
carries its offset as a trailing `Z`, which the code does not strip
(`timestamp.split("+")[0]` only strips a `'+'`-introduced suffix);
`strptime` then raises and the record is skipped (`none`) instead of
normalizing to `"2024-03-02"` — refuting "strips any trailing offset
marker". -/
theorem c7_counterexample :
    extractEventDate defaultConfig.timezone_offset
      (.str "2024-03-01T23:30:00Z") = none := by decide

/-- C7 (amended): an ISO event timestamp whose embedded offset is introduced
by `'+'` has everything from the `'+'` on stripped before parsing, the
configured UTC offset is added and the result is formatted `YYYY-MM-DD`
(`"2024-03-01T23:30:00+<anything>"` at offset +7 gives `"2024-03-02"`); a
numeric epoch timestamp is converted and offset the same way; a string
without a `'T'` is returned verbatim (its date-only prefix before any time
separator); offsets marked otherwise (e.g. a trailing `Z`) make the parse
raise and the record is skipped. -/
theorem c7_event_date_normalization :
    (∀ z : String, extractEventDate 7
        (.str ("2024-03-01T23:30:00+" ++ z)) = some "2024-03-02") ∧
    extractEventDate 7 (.num 1709335800) = some "2024-03-02" ∧
    (∀ s : String, strContainsChar s 'T' = false →
      extractEventDate 7 (.str s) = some s) := by
  refine ⟨?_, by decide, ?_⟩
  · intro z
    have htl : ("2024-03-01T23:30:00+" ++ z).toList =
        "2024-03-01T23:30:00+".toList ++ z.toList := by
      simp [String.toList, String.data_append]
    have hT : strContainsChar ("2024-03-01T23:30:00+" ++ z) 'T' = true := by
      rw [strContainsChar, htl]
      exact listHasChar_append_left 'T' _ _ (by decide)
    have hplus : takeBeforePlus ("2024-03-01T23:30:00+" ++ z) =
        "2024-03-01T23:30:00" := by
      rw [takeBeforePlus, htl, takeUntilPlus_append_left _ _ (by decide)]
      rfl
    simp only [extractEventDate, hT, hplus, if_true]
    rfl
  · intro s hs
    simp [extractEventDate, hs]

/-- C7 witness: the amended normalization applied at the spec's example
timestamp and at a date-only string. -/
theorem c7_event_date_normalization_witness :
    extractEventDate 7 (.str ("2024-03-01T23:30:00+" ++ "0000")) =
      some "2024-03-02" ∧
    extractEventDate 7 (.str "2024-03-01") = some "2024-03-01" :=
  ⟨c7_event_date_normalization.1 "0000",
   c7_event_date_normalization.2.2 "2024-03-01" (by decide)⟩

/-- C9: emission is gated on truthiness, not presence — an extracted amount
or transaction id that is falsy (the number 0, the empty string, or any
other falsy value) suppresses the canonical record even though the field was
present and extracted. -/
theorem c9_truthiness_gate (cfg : Config) (dec : String → Option Json)
    (an ai : String) (act : Activity) :
    (∀ j : Json, extractAmount (decodeExtra dec act.extra_data) = some j →
      j.truthy = false → processActivity cfg dec an ai act = none) ∧
    (∀ j : Json, extractTransactionId (decodeExtra dec act.extra_data) = some j →
      j.truthy = false → processActivity cfg dec an ai act = none) ∧
    (extractAmount (decodeExtra dec act.extra_data) = some (.num 0) →
      processActivity cfg dec an ai act = none) ∧
    (extractTransactionId (decodeExtra dec act.extra_data) = some (.str "") →
      processActivity cfg dec an ai act = none) := by
  have hamt : ∀ j : Json, extractAmount (decodeExtra dec act.extra_data) = some j →
      j.truthy = false → processActivity cfg dec an ai act = none := by
    intro j hj hfalse
    simp [processActivity, hj, optTruthy, hfalse]
  have htid : ∀ j : Json, extractTransactionId (decodeExtra dec act.extra_data) = some j →
      j.truthy = false → processActivity cfg dec an ai act = none := by
    intro j hj hfalse
    simp [processActivity, hj, optTruthy, hfalse]
  exact ⟨hamt, htid,
    fun h => hamt _ h rfl,
    fun h => htid _ h rfl⟩

/-- C9 witness: an activity whose payload carries `amount: 0` and one whose
payload carries `transaction_id: ""` each produce no canonical record. -/
theorem c9_truthiness_gate_witness :
    processActivity defaultConfig failDecoder "Acme" "act_987" zeroAmountAct = none ∧
    processActivity defaultConfig failDecoder "Acme" "act_987" emptyTidAct = none :=
  ⟨(c9_truthiness_gate defaultConfig failDecoder "Acme" "act_987"
      zeroAmountAct).2.2.1 rfl,
   (c9_truthiness_gate defaultConfig failDecoder "Acme" "act_987"
      emptyTidAct).2.2.2 rfl⟩

lemma processActivity_some_anatomy (cfg : Config) (dec : String → Option Json)
    (an ai : String) (act : Activity) (t : Tx)
    (h : processActivity cfg dec an ai act = some t) :
    ∃ av : Json, extractAmount (decodeExtra dec act.extra_data) = some av ∧
      av.truthy = true ∧ t.amount = av ∧
      t.tax_amount = taxAmountOf cfg (some av) := by
  simp only [processActivity] at h
  split at h
  next hgate =>
    split at h
    next het =>
      split at h
      next d hd =>
        obtain ⟨hgt, hga⟩ := (Bool.and_eq_true _ _).mp hgate
        cases hamt : extractAmount (decodeExtra dec act.extra_data) with
        | none => rw [hamt] at hga; simp [optTruthy] at hga
        | some av =>
          rw [hamt] at hga
          have hav : av.truthy = true := by simpa [optTruthy] using hga
          obtain rfl := Option.some.inj h
          refine ⟨av, rfl, hav, ?_, ?_⟩
          · show (extractAmount (decodeExtra dec act.extra_data)).getD .null = av
            rw [hamt]; rfl
          · show taxAmountOf cfg (extractAmount (decodeExtra dec act.extra_data)) =
              taxAmountOf cfg (some av)
            rw [hamt]
      next hd => cases h
    next => cases h
  next => cases h

lemma processActivity_goodAct1 :
    processActivity defaultConfig failDecoder "Acme" "act_987" goodAct1 = some tx1 := by
  have ha : extractAmount (decodeExtra failDecoder goodAct1.extra_data) =
      some (.num 100) := rfl
  simp only [processActivity, ha, tax_100]
  rfl

lemma processActivity_goodAct3 :
    processActivity defaultConfig failDecoder "Acme" "act_987" goodAct3 = some tx3 := by
  have ha : extractAmount (decodeExtra failDecoder goodAct3.extra_data) =
      some (.num 200) := rfl
  simp only [processActivity, ha, tax_200]
  rfl

lemma processActivity_badAct :
    processActivity defaultConfig failDecoder "Acme" "act_987" badAct = none := rfl

/-- C2 counterexample: base 1000 at rate 0.11 gives tax 110, but the gross
amount the sink writes is 1000 + 110 = 1110, not the 1100 the claim's
example states. -/
theorem c2_counterexample :
    taxAmountOf defaultConfig (some (.num 1000)) = some 110 ∧
    (buildRow defaultConfig tx1000).map Row.withTax = some (.num 1110) ∧
    ¬((buildRow defaultConfig tx1000).map Row.withTax = some (.num 1100)) := by
  have h110 : pyRound ((1000 : ℚ) * defaultConfig.tax_rate) = 110 :=
    pyRound_eq_intCast _ 110 (by norm_num [defaultConfig])
  have hval : ((1000 : ℚ) + ((110 : ℤ) : ℚ)) = 1110 := by norm_num
  have hrow : (buildRow defaultConfig tx1000).map Row.withTax =
      some (.num 1110) := by
    simp only [buildRow, tx1000, Json.isNumericPy, Json.numVal, if_true,
      Option.map_some]
    rw [h110, hval]
    rfl
  refine ⟨tax_1000, hrow, ?_⟩
  rw [hrow]
  intro hcontra
  have : (1110 : ℚ) = 1100 := by
    have := Option.some.inj hcontra
    exact Json.num.inj this
  norm_num at this

/-- C2 (amended): tax/gross consistency across the two call sites.  For
every record emitted by the normalizer whose stored base amount is the
number `a`, the record's tax amount is `round(a * tax_rate)` and the gross
amount the sink writes for it is exactly `a` plus that same tax amount (the
sink recomputes `round(base * tax_rate)` with the same rounding rule and the
same configured rate); concretely, base 1000 at rate 0.11 gives tax 110 and
gross 1110. -/
theorem c2_tax_gross_consistency (cfg : Config) (dec : String → Option Json)
    (an ai : String) (act : Activity) (t : Tx) (a : ℚ)
    (hemit : processActivity cfg dec an ai act = some t)
    (hnum : t.amount = .num a) :
    (∃ tax : ℤ, t.tax_amount = some tax ∧ tax = pyRound (a * cfg.tax_rate) ∧
      (buildRow cfg t).map Row.withTax = some (.num (a + (tax : ℚ)))) ∧
    taxAmountOf defaultConfig (some (.num 1000)) = some 110 ∧
    (buildRow defaultConfig tx1000).map Row.withTax = some (.num 1110) := by
  refine ⟨?_, tax_1000, ?_⟩
  · obtain ⟨av, hamt, hav, htam, htax⟩ :=
      processActivity_some_anatomy cfg dec an ai act t hemit
    have hveq : av = .num a := by rw [← htam, hnum]
    subst hveq
    have hane : a ≠ 0 := by
      intro h0
      rw [h0] at hav
      simp [Json.truthy] at hav
    refine ⟨pyRound (a * cfg.tax_rate), ?_, rfl, ?_⟩
    · rw [htax, taxAmountOf_num cfg a hane]
    · simp [buildRow, hnum, Json.isNumericPy, Json.numVal]
  · have h110 : pyRound ((1000 : ℚ) * defaultConfig.tax_rate) = 110 :=
      pyRound_eq_intCast _ 110 (by norm_num [defaultConfig])
    have hval : ((1000 : ℚ) + ((110 : ℤ) : ℚ)) = 1110 := by norm_num
    simp only [buildRow, tx1000, Json.isNumericPy, Json.numVal, if_true,
      Option.map_some]
    rw [h110, hval]
    rfl

/-- C2 witness: the consistency fact at the concrete record extracted from
`goodAct1` (base 100: tax 11, gross 111). -/
theorem c2_tax_gross_consistency_witness :
    processActivity defaultConfig failDecoder "Acme" "act_987" goodAct1 = some tx1 ∧
    tx1.amount = Json.num 100 ∧
    (∃ tax : ℤ, tx1.tax_amount = some tax ∧
      tax = pyRound (100 * defaultConfig.tax_rate) ∧
      (buildRow defaultConfig tx1).map Row.withTax =
        some (.num (100 + (tax : ℚ)))) :=
  ⟨processActivity_goodAct1, rfl,
   (c2_tax_gross_consistency defaultConfig failDecoder "Acme" "act_987"
      goodAct1 tx1 100 processActivity_goodAct1 rfl).1⟩

/-- C8: per-record failure isolation.  The batch loop of
`process_transaction_data` treats each activity independently (it is exactly
a `filterMap` of the per-activity extraction), a record is emitted only when
both transaction id and base amount were extracted, and a malformed activity
is skipped without aborting: the 3-activity batch whose 2nd member has a
non-JSON string payload yields exactly the 2 canonical transactions of its
well-formed members. -/
theorem c8_per_record_isolation :
    (∀ (cfg : Config) (dec : String → Option Json) (an ai : String)
        (acts : List Activity),
      processTransactionData cfg dec an ai acts =
        acts.filterMap (processActivity cfg dec an ai)) ∧
    processActivity defaultConfig failDecoder "Acme" "act_987" badAct = none ∧
    processTransactionData defaultConfig failDecoder "Acme" "act_987"
      [goodAct1, badAct, goodAct3] = [tx1, tx3] := by
  have hfm : ∀ (cfg : Config) (dec : String → Option Json) (an ai : String)
      (acts : List Activity),
      processTransactionData cfg dec an ai acts =
        acts.filterMap (processActivity cfg dec an ai) := by
    intro cfg dec an ai acts
    induction acts with
    | nil => rfl
    | cons a rest ih =>
      simp only [processTransactionData, List.filterMap_cons]
      cases h : processActivity cfg dec an ai a <;> simp [h, ih]
  refine ⟨hfm, processActivity_badAct, ?_⟩
  simp only [processTransactionData, processActivity_goodAct1,
    processActivity_badAct, processActivity_goodAct3]

lemma fetchWithApproaches_all_rejected (ym : String)
    (l : List (Option ApproachResult))
    (h : l.all (approachRejected ym) = true) :
    fetchWithApproaches ym l = [] := by
  induction l with
  | nil => rfl
  | cons p rest ih =>
    simp only [List.all_cons, Bool.and_eq_true] at h
    cases p with
    | none => simp only [fetchWithApproaches]; exact ih h.2
    | some r =>
      have hrj : (r.data.filter (activityInWindow ym)).isEmpty = true := h.1
      simp only [fetchWithApproaches]
      by_cases hlen : r.data.length > 0
      · simp only [hlen, if_true, hrj, if_true]
        exact ih h.2
      · simp only [hlen, if_false]
        exact ih h.2

/-- C4: query strategy selection.  The selector walks its ordered approach
list; every approach that fails, returns an empty page, or returns no record
of the target year-month is passed over; the first approach with an
in-window record is accepted, and the result is exactly that approach's
in-window records followed by the in-window records of its pagination pages
— later approaches are never consulted; when every approach is exhausted
without an in-window record the result is the empty list. -/
theorem c4_strategy_selection (ym : String)
    (pre : List (Option ApproachResult)) (r : ApproachResult)
    (rest : List (Option ApproachResult))
    (hpre : pre.all (approachRejected ym) = true)
    (hr : (r.data.filter (activityInWindow ym)).isEmpty = false) :
    fetchWithApproaches ym (pre ++ some r :: rest) =
      r.data.filter (activityInWindow ym) ++
        (r.pages.getD []).filter (activityInWindow ym) ∧
    ∀ l : List (Option ApproachResult), l.all (approachRejected ym) = true →
      fetchWithApproaches ym l = [] := by
  refine ⟨?_, fetchWithApproaches_all_rejected ym⟩
  induction pre with
  | nil =>
    simp only [List.nil_append, fetchWithApproaches]
    have hlen : r.data.length > 0 := by
      by_contra hcon
      have hnil : r.data = [] := by
        cases hd : r.data with
        | nil => rfl
        | cons a t => rw [hd] at hcon; simp at hcon
      rw [hnil] at hr
      simp at hr
    simp only [hlen, if_true, hr, Bool.false_eq_true, if_false]
    cases hp : r.pages with
    | none => simp
    | some pageData => rfl
  | cons p prest ih =>
    simp only [List.all_cons, Bool.and_eq_true] at hpre
    cases p with
    | none =>
      simp only [List.cons_append, fetchWithApproaches]
      exact ih hpre.2
    | some x =>
      have hxr : (x.data.filter (activityInWindow ym)).isEmpty = true := hpre.1
      simp only [List.cons_append, fetchWithApproaches]
      by_cases hlen : x.data.length > 0
      · simp only [hlen, if_true, hxr, if_true]
        exact ih hpre.2
      · simp only [hlen, if_false]
        exact ih hpre.2

/-- C4 witness: strategy 1 returns only a January activity (outside the
2024-03 window), strategy 2 returns a March activity — the selector's result
is exactly strategy 2's in-window subset. -/
theorem c4_strategy_selection_witness :
    fetchWithApproaches "2024-03"
      ([some { data := [janActivity], pages := none }] ++
        some { data := [marActivity, janActivity], pages := none } :: []) =
      [marActivity, janActivity].filter (activityInWindow "2024-03") ++
        ((none : Option (List Activity)).getD []).filter
          (activityInWindow "2024-03") ∧
    [marActivity, janActivity].filter (activityInWindow "2024-03") =
      [marActivity] :=
  ⟨(c4_strategy_selection "2024-03"
      [some { data := [janActivity], pages := none }]
      { data := [marActivity, janActivity], pages := none } []
      (by decide) (by decide)).1,
   rfl⟩

lemma save_to_sheets_ok (cfg : Config) (rows : List Row) (ts : List Tx) :
    save_to_sheets cfg false rows ts =
      (match buildRows cfg (ts.filter fun t =>
          !txidInSet (existingIds rows) t.transaction_id) with
       | some built => some (rows ++ built, built.length)
       | none => none) := rfl

lemma existingIds_append (l1 l2 : List Row) :
    existingIds (l1 ++ l2) = existingIds l1 ++ existingIds l2 :=
  List.filterMap_append l1 l2 _

/-- C1: dedup idempotence.  A transaction whose (string) transaction id is a
member of the existing-id set read at the start of `save_to_sheets` is never
appended — no appended row carries that id, whatever the transaction's other
fields; and running `save_to_sheets` a second time, with the same
transaction list, against the sink state produced by the first run appends
zero new rows. -/
theorem c1_dedup_idempotence (cfg : Config) (rows : List Row) (ts : List Tx)
    (s : String) :
    (s ∈ existingIds rows →
      ∀ r ∈ appendedRows cfg false rows ts, r.txid ≠ .str s) ∧
    ((ts.all fun t => t.transaction_id.isStr) = true →
      appendedRows cfg false (saveResultState cfg false rows ts) ts = []) := by
  constructor
  · intro hs r hr hcontra
    unfold appendedRows at hr
    rw [save_to_sheets_ok] at hr
    cases hb : buildRows cfg (ts.filter fun t =>
        !txidInSet (existingIds rows) t.transaction_id) with
    | none => rw [hb] at hr; simp at hr
    | some built =>
      rw [hb] at hr
      simp only [List.drop_left] at hr
      obtain ⟨t, ht, htx⟩ := buildRows_backward cfg _ built hb r hr
      obtain ⟨hts, hkeep⟩ := List.mem_filter.mp ht
      have htid : t.transaction_id = .str s := by rw [← htx, hcontra]
      rw [htid] at hkeep
      have hco : (existingIds rows).contains s = true :=
        List.elem_eq_true_of_mem hs
      rw [show txidInSet (existingIds rows) (.str s) =
          (existingIds rows).contains s from rfl, hco] at hkeep
      cases hkeep
  · intro hids
    cases hb : buildRows cfg (ts.filter fun t =>
        !txidInSet (existingIds rows) t.transaction_id) with
    | none =>
      have hstate : saveResultState cfg false rows ts = rows := by
        unfold saveResultState
        rw [save_to_sheets_ok, hb]
      rw [hstate]
      unfold appendedRows
      rw [save_to_sheets_ok, hb]
    | some built =>
      have hstate : saveResultState cfg false rows ts = rows ++ built := by
        unfold saveResultState
        rw [save_to_sheets_ok, hb]
      rw [hstate]
      have hfilter2 : ts.filter (fun t =>
          !txidInSet (existingIds (rows ++ built)) t.transaction_id) = [] := by
        rw [List.filter_eq_nil_iff]
        intro t ht
        have hstr : t.transaction_id.isStr = true := by
          have := List.all_eq_true.mp hids t ht
          simpa using this
        cases htid : t.transaction_id with
        | str sv =>
          simp only [txidInSet, Bool.not_eq_true]
          rw [Bool.not_eq_false', existingIds_append]
          by_cases hmem1 : sv ∈ existingIds rows
          · exact List.elem_eq_true_of_mem (List.mem_append_left _ hmem1)
          · have hkeep1 : txidInSet (existingIds rows) t.transaction_id = false := by
              rw [htid]
              show (existingIds rows).contains sv = false
              cases hc : (existingIds rows).contains sv with
              | false => rfl
              | true => exact absurd (List.mem_of_elem_eq_true hc) hmem1
            have htf : t ∈ ts.filter (fun t =>
                !txidInSet (existingIds rows) t.transaction_id) :=
              List.mem_filter.mpr ⟨ht, by rw [hkeep1]; rfl⟩
            obtain ⟨rrow, hrr, hrtx⟩ := buildRows_forward cfg _ built hb t htf
            have hsv : sv ∈ existingIds built := by
              rw [existingIds]
              exact List.mem_filterMap.mpr ⟨rrow, hrr, by rw [hrtx, htid]⟩
            exact List.elem_eq_true_of_mem (List.mem_append_right _ hsv)
        | null => rw [htid] at hstr; cases hstr
        | bool b => rw [htid] at hstr; cases hstr
        | num q => rw [htid] at hstr; cases hstr
        | obj fs => rw [htid] at hstr; cases hstr
        | arr els => rw [htid] at hstr; cases hstr
      have hsave2 : save_to_sheets cfg false (rows ++ built) ts =
          some ((rows ++ built) ++ [], 0) := by
        rw [save_to_sheets_ok, hfilter2]
        rfl
      unfold appendedRows
      rw [hsave2]
      simp

/-- C1 witness: with `t1` already in the sheet, saving `[tx1, tx3]` appends
no row carrying id `t1`, and a second save against the produced state
appends nothing. -/
theorem c1_dedup_idempotence_witness :
    "t1" ∈ existingIds [rowT1] ∧
    (∀ r ∈ appendedRows defaultConfig false [rowT1] [tx1, tx3],
      r.txid ≠ .str "t1") ∧
    ([tx1, tx3].all fun t => t.transaction_id.isStr) = true ∧
    appendedRows defaultConfig false
      (saveResultState defaultConfig false [rowT1] [tx1, tx3]) [tx1, tx3] = [] :=
  ⟨by decide,
   (c1_dedup_idempotence defaultConfig [rowT1] [tx1, tx3] "t1").1 (by decide),
   by decide,
   (c1_dedup_idempotence defaultConfig [rowT1] [tx1, tx3] "t1").2 (by decide)⟩

end MetoSheet
